import Mathlib

/-!
Shallow embedding of the slack-status-bot health-check core
(`checkService` / `checkAll` / `detectTransitions` / incident recording
from `main.go`), together with theorems settling the specification
claims about it.

Modelling conventions:
* `time.Time` / `time.Duration` values are nanosecond counts (`Nat`);
  the Go zero time `time.Time{}` is encoded as `0` (`IsZero` ↔ `= 0`).
* The Go map `map[string]*ServiceState` is modelled as a total function
  `String → ServiceState` whose default value is the zero `ServiceState`:
  `detectTransitions` creates a missing key as the zero state, so
  lookup-or-create coincides with plain lookup in this representation.
* The Go struct field `Type` of `Transition` is called `Kind` here
  (`Type` is a reserved word in Lean).
-/

namespace Slack

/-- Embeds the Go struct `Service` (name, url, env). -/
structure Service where
  Name : String
  URL : String
  Env : String
deriving DecidableEq

/-- Embeds the Go struct `CheckResult` produced by one probe. -/
structure CheckResult where
  Service : Service
  Up : Bool
  StatusCode : Nat
  Latency : Nat
  Error : String
deriving DecidableEq

/-- Embeds the Go struct `ServiceState`; `DownSince = 0` encodes the zero time. -/
structure ServiceState where
  IsDown : Bool
  FailCount : Nat
  DownSince : Nat
deriving DecidableEq

/-- Embeds the Go struct `Transition`; `Kind` embeds the Go field `Type`. -/
structure Transition where
  ServiceName : String
  Kind : String
  Error : String
  Downtime : String
deriving DecidableEq

/-- Embeds the Go struct `LastIncident`; `OccurredAt = 0` encodes the zero time. -/
structure LastIncident where
  ServiceName : String
  OccurredAt : Nat
  Duration : String
deriving DecidableEq

/-- Embeds `const failThreshold = 4`. -/
def failThreshold : Nat := 4

/-- Nanoseconds in `time.Second`. -/
def secondNs : Nat := 1000000000

/-- Nanoseconds in `time.Minute`. -/
def minuteNs : Nat := 60 * secondNs

/-- Nanoseconds in `time.Hour`. -/
def hourNs : Nat := 60 * minuteNs

/-- Embeds `formatDuration`: `int(d.Seconds())` etc. are the floor
divisions of the nanosecond count by the unit. -/
def formatDuration (d : Nat) : String :=
  if d < minuteNs then toString (d / secondNs) ++ "s"
  else if d < hourNs then toString (d / minuteNs) ++ "m"
  else if (d / minuteNs) % 60 = 0 then toString (d / hourNs) ++ "h"
  else toString (d / hourNs) ++ "h" ++ toString ((d / minuteNs) % 60) ++ "m"

/-- Embeds `serviceKey`: `svc.Name + ":" + svc.Env`. -/
def serviceKey (svc : Service) : String :=
  svc.Name ++ ":" ++ svc.Env

/-- Embeds the display name `fmt.Sprintf("%s (%s)", r.Service.Name, r.Service.Env)`
computed inside `detectTransitions`. -/
def displayName (svc : Service) : String :=
  svc.Name ++ " (" ++ svc.Env ++ ")"

/-- The tracker's state map (see the module comment for why this is total). -/
abbrev States := String → ServiceState

/-- A fresh state map: every key holds the zero `ServiceState`, exactly the
value `&ServiceState{}` that `detectTransitions` installs for an unseen key. -/
def initialStates : States :=
  fun _ => { IsDown := false, FailCount := 0, DownSince := 0 }

/-- One iteration of the result loop of `detectTransitions`, acting on the
state stored under the result's key; `now` is the clock reading used both
for `time.Since(state.DownSince)` and for `state.DownSince = time.Now()`.
Returns the transitions appended by this iteration and the updated state. -/
def stepResult (now : Nat) (r : CheckResult) (st : ServiceState) :
    List Transition × ServiceState :=
  if r.Up then
    if st.IsDown then
      ([{ ServiceName := displayName r.Service, Kind := "up", Error := "",
          Downtime := if st.DownSince ≠ 0 then formatDuration (now - st.DownSince) else "" }],
       { IsDown := false, FailCount := 0, DownSince := 0 })
    else
      ([], { st with FailCount := 0 })
  else
    if st.IsDown = false ∧ failThreshold ≤ st.FailCount + 1 then
      ([{ ServiceName := displayName r.Service, Kind := "down", Error := r.Error,
          Downtime := "" }],
       { IsDown := true, FailCount := st.FailCount + 1, DownSince := now })
    else
      ([], { st with FailCount := st.FailCount + 1 })

/-- Embeds `detectTransitions(results, states)`: fold the per-result step
over the list, threading the state map and appending emitted transitions.
`now` is the cycle's clock reading. -/
def detectTransitions (now : Nat) : List CheckResult → States → List Transition × States
  | [], s => ([], s)
  | r :: rest, s =>
    let out := stepResult now r (s (serviceKey r.Service))
    let s' : States := fun k => if k = serviceKey r.Service then out.2 else s k
    let restOut := detectTransitions now rest s'
    (out.1 ++ restOut.1, restOut.2)

/-- Replays a sequence of cycles through the tracker: each batch is a pair
(clock reading, that cycle's `CheckResult` list), applied by
`detectTransitions` to the threaded state map, as the cycle driver does. -/
def replay : List (Nat × List CheckResult) → States → List (List Transition) × States
  | [], s => ([], s)
  | b :: rest, s =>
    let out := detectTransitions b.1 b.2 s
    let restOut := replay rest out.2
    (out.1 :: restOut.1, restOut.2)

/-- Outcome of the network-facing calls inside `checkService`:
`http.NewRequestWithContext` fails (malformed URL), `client.Do` fails
(network error / timeout), or a response with a status code arrives. -/
inductive NetResult where
  | invalidURL : NetResult
  | requestError : NetResult
  | response (status : Nat) : NetResult
deriving DecidableEq

/-- Embeds `checkService`'s classification of one probe. `elapsedReq` is the
`time.Since(start)` measured when request construction fails; `elapsed` is
the latency measured right after `client.Do` returns; `net` is what the
network calls produced. -/
def checkService (svc : Service) (elapsedReq elapsed : Nat) (net : NetResult) : CheckResult :=
  match net with
  | NetResult.invalidURL =>
    { Service := svc, Up := false, StatusCode := 0, Latency := elapsedReq,
      Error := "invalid url" }
  | NetResult.requestError =>
    { Service := svc, Up := false, StatusCode := 0, Latency := elapsed,
      Error := "request failed" }
  | NetResult.response code =>
    if 200 ≤ code ∧ code < 300 then
      { Service := svc, Up := true, StatusCode := code, Latency := elapsed, Error := "" }
    else
      { Service := svc, Up := false, StatusCode := code, Latency := elapsed,
        Error := "http_" ++ toString code }

/-- One goroutine body of `checkAll`: write `results[i] = probe i` into the
pre-sized buffer (`i < n` guards the launched index range). -/
def writeResult (probe : Nat → CheckResult) (n : Nat)
    (buf : Nat → Option CheckResult) (i : Nat) : Nat → Option CheckResult :=
  fun j => if j = i ∧ i < n then some (probe i) else buf j

/-- The result buffer of `checkAll` after the goroutines complete in the
order given by `schedule` (an arbitrary completion order; the semaphore
bounds how many run at once but every launched index completes before
`wg.Wait()` returns, so `schedule` covers `0..n-1`). `none` marks a slot
never written. -/
def checkAllBuf (probe : Nat → CheckResult) (n : Nat) (schedule : List Nat) :
    Nat → Option CheckResult :=
  schedule.foldl (writeResult probe n) (fun _ => none)

/-- Embeds `checkAll`: the buffer read out positionally, index by index. -/
def checkAll (probe : Nat → CheckResult) (n : Nat) (schedule : List Nat) :
    List (Option CheckResult) :=
  (List.range n).map (checkAllBuf probe n schedule)

/-- Embeds one iteration of the incident-recording loop in `runCycle`:
`if t.Type == "up" && t.Downtime != "" { overwrite lastIncident }`. -/
def recordIncident (now : Nat) (inc : LastIncident) (t : Transition) : LastIncident :=
  if t.Kind = "up" ∧ t.Downtime ≠ "" then
    { ServiceName := t.ServiceName, OccurredAt := now, Duration := t.Downtime }
  else inc

/-- The whole incident-recording loop of `runCycle` over a cycle's transitions. -/
def recordIncidents (now : Nat) (inc : LastIncident) (ts : List Transition) : LastIncident :=
  ts.foldl (recordIncident now) inc

/-- The per-key state invariant maintained by the tracker: a Down state has a
nonzero `DownSince`; an Up state has a zero `DownSince` and a failure counter
strictly below the threshold. -/
def Inv (st : ServiceState) : Prop :=
  (st.IsDown = true → st.DownSince ≠ 0) ∧
  (st.IsDown = false → st.DownSince = 0 ∧ st.FailCount < failThreshold)

theorem string_append_cancel_left {a b c : String} (h : a ++ b = a ++ c) : b = c := by
  have hd : (a ++ b).data = (a ++ c).data := congrArg _ h
  rw [String.data_append, String.data_append] at hd
  exact String.ext (List.append_cancel_left hd)

theorem string_append_cancel_right {a b c : String} (h : a ++ c = b ++ c) : a = b := by
  have hd : (a ++ c).data = (b ++ c).data := congrArg _ h
  rw [String.data_append, String.data_append] at hd
  exact String.ext (List.append_cancel_right hd)

theorem string_append_ne_empty_right (a b : String) (hb : b ≠ "") : a ++ b ≠ "" := by
  intro h
  have hd : (a ++ b).data = ("" : String).data := congrArg _ h
  rw [String.data_append] at hd
  exact (fun hh => hb (String.ext hh)) (List.append_eq_nil.mp hd).2

theorem serviceKey_ne_of_env_ne {s1 s2 : Service} (hname : s1.Name = s2.Name)
    (henv : s1.Env ≠ s2.Env) : serviceKey s1 ≠ serviceKey s2 := by
  intro h
  unfold serviceKey at h
  rw [hname] at h
  exact henv (string_append_cancel_left h)

theorem displayName_ne_of_env_ne {s1 s2 : Service} (hname : s1.Name = s2.Name)
    (henv : s1.Env ≠ s2.Env) : displayName s1 ≠ displayName s2 := by
  intro h
  unfold displayName at h
  rw [hname] at h
  exact henv (string_append_cancel_left (string_append_cancel_right h))

theorem formatDuration_ne_empty (d : Nat) : formatDuration d ≠ "" := by
  unfold formatDuration
  by_cases h1 : d < minuteNs
  · rw [if_pos h1]
    exact string_append_ne_empty_right _ _ (by decide)
  · rw [if_neg h1]
    by_cases h2 : d < hourNs
    · rw [if_pos h2]
      exact string_append_ne_empty_right _ _ (by decide)
    · rw [if_neg h2]
      by_cases h3 : (d / minuteNs) % 60 = 0
      · rw [if_pos h3]
        exact string_append_ne_empty_right _ _ (by decide)
      · rw [if_neg h3]
        exact string_append_ne_empty_right _ _ (by decide)

theorem stepResult_up_reset (now : Nat) (r : CheckResult) (c d : Nat) (hr : r.Up = true) :
    stepResult now r ⟨false, c, d⟩ = ([], ⟨false, 0, d⟩) := by
  simp [stepResult, hr]

theorem stepResult_up_recovery (now : Nat) (r : CheckResult) (c d : Nat) (hr : r.Up = true) :
    stepResult now r ⟨true, c, d⟩ =
      ([{ ServiceName := displayName r.Service, Kind := "up", Error := "",
          Downtime := if d ≠ 0 then formatDuration (now - d) else "" }],
       ⟨false, 0, 0⟩) := by
  simp [stepResult, hr]

theorem stepResult_down_incr (now : Nat) (r : CheckResult) (c d : Nat) (hr : r.Up = false)
    (h : c + 1 < failThreshold) :
    stepResult now r ⟨false, c, d⟩ = ([], ⟨false, c + 1, d⟩) := by
  have h2 : ¬ failThreshold ≤ c + 1 := by omega
  simp [stepResult, hr, h2]

theorem stepResult_down_trigger (now : Nat) (r : CheckResult) (c d : Nat) (hr : r.Up = false)
    (h : failThreshold ≤ c + 1) :
    stepResult now r ⟨false, c, d⟩ =
      ([{ ServiceName := displayName r.Service, Kind := "down", Error := r.Error,
          Downtime := "" }],
       ⟨true, c + 1, now⟩) := by
  simp [stepResult, hr, h]

theorem stepResult_down_latched (now : Nat) (r : CheckResult) (c d : Nat) (hr : r.Up = false) :
    stepResult now r ⟨true, c, d⟩ = ([], ⟨true, c + 1, d⟩) := by
  simp [stepResult, hr]

theorem detect_nil (now : Nat) (s : States) : detectTransitions now [] s = ([], s) := rfl

theorem detect_cons (now : Nat) (r : CheckResult) (rest : List CheckResult) (s : States) :
    detectTransitions now (r :: rest) s =
      ((stepResult now r (s (serviceKey r.Service))).1 ++
        (detectTransitions now rest
          (fun k => if k = serviceKey r.Service
                    then (stepResult now r (s (serviceKey r.Service))).2 else s k)).1,
       (detectTransitions now rest
          (fun k => if k = serviceKey r.Service
                    then (stepResult now r (s (serviceKey r.Service))).2 else s k)).2) := rfl

theorem detect_single (now : Nat) (r : CheckResult) (s : States) :
    detectTransitions now [r] s =
      ((stepResult now r (s (serviceKey r.Service))).1,
       fun k => if k = serviceKey r.Service
                then (stepResult now r (s (serviceKey r.Service))).2 else s k) := by
  rw [detect_cons, detect_nil]
  simp

theorem replay_nil (s : States) : replay [] s = ([], s) := rfl

theorem replay_cons (b : Nat × List CheckResult) (rest : List (Nat × List CheckResult))
    (s : States) :
    replay (b :: rest) s =
      ((detectTransitions b.1 b.2 s).1 :: (replay rest (detectTransitions b.1 b.2 s).2).1,
       (replay rest (detectTransitions b.1 b.2 s).2).2) := rfl

theorem replay_append (l1 l2 : List (Nat × List CheckResult)) (s : States) :
    replay (l1 ++ l2) s =
      ((replay l1 s).1 ++ (replay l2 (replay l1 s).2).1,
       (replay l2 (replay l1 s).2).2) := by
  induction l1 generalizing s with
  | nil => simp [replay_nil]
  | cons b rest ih =>
    rw [List.cons_append, replay_cons, replay_cons, ih]
    simp

theorem flatten_replicate_empty (k : Nat) :
    (List.replicate k ([] : List Transition)).flatten = [] := by
  induction k with
  | zero => rfl
  | succ n ih => simp [List.replicate_succ, ih]

theorem replay_cons_batch (now : Nat) (results : List CheckResult)
    (rest : List (Nat × List CheckResult)) (s : States) :
    replay ((now, results) :: rest) s =
      ((detectTransitions now results s).1 ::
        (replay rest (detectTransitions now results s).2).1,
       (replay rest (detectTransitions now results s).2).2) := rfl

theorem replay_down_run (r : CheckResult) (now : Nat) (hr : r.Up = false) :
    ∀ (k c d : Nat) (s : States),
      s (serviceKey r.Service) = ⟨false, c, d⟩ →
      c + k < failThreshold →
      (replay (List.replicate k (now, [r])) s).1 = List.replicate k [] ∧
      ∀ key, (replay (List.replicate k (now, [r])) s).2 key =
        if key = serviceKey r.Service then ⟨false, c + k, d⟩ else s key := by
  intro k
  induction k with
  | zero =>
    intro c d s hs hfc
    refine ⟨rfl, fun key => ?_⟩
    by_cases hk : key = serviceKey r.Service
    · rw [if_pos hk, hk]
      show s (serviceKey r.Service) = ⟨false, c + 0, d⟩
      rw [hs]
      rfl
    · rw [if_neg hk]
      rfl
  | succ n ih =>
    intro c d s hs hfc
    obtain ⟨ih1, ih2⟩ := ih (c + 1) d
        (fun k => if k = serviceKey r.Service then ⟨false, c + 1, d⟩ else s k)
        (by simp) (by omega)
    have hdet : detectTransitions now [r] s =
        ([], fun k => if k = serviceKey r.Service then ⟨false, c + 1, d⟩ else s k) := by
      rw [detect_single, hs, stepResult_down_incr now r c d hr (by omega)]
    have hrw : replay (List.replicate (n + 1) (now, [r])) s =
        ([] :: (replay (List.replicate n (now, [r]))
                  (fun k => if k = serviceKey r.Service then ⟨false, c + 1, d⟩ else s k)).1,
         (replay (List.replicate n (now, [r]))
                  (fun k => if k = serviceKey r.Service then ⟨false, c + 1, d⟩ else s k)).2) := by
      rw [List.replicate_succ, replay_cons_batch, hdet]
    refine ⟨?_, fun key => ?_⟩
    · rw [hrw, List.replicate_succ]
      show [] :: _ = ([] : List Transition) :: _
      rw [ih1]
    · rw [hrw]
      show (replay (List.replicate n (now, [r]))
              (fun k => if k = serviceKey r.Service then ⟨false, c + 1, d⟩ else s k)).2 key = _
      rw [ih2 key]
      by_cases hk : key = serviceKey r.Service
      · rw [if_pos hk, if_pos hk]
        have hc : c + 1 + n = c + (n + 1) := by omega
        rw [hc]
      · rw [if_neg hk, if_neg hk, if_neg hk]

theorem replay_latched_run (r : CheckResult) (now : Nat) (hr : r.Up = false) :
    ∀ (n c d : Nat) (s : States),
      s (serviceKey r.Service) = ⟨true, c, d⟩ →
      (replay (List.replicate n (now, [r])) s).1 = List.replicate n [] ∧
      ∀ key, (replay (List.replicate n (now, [r])) s).2 key =
        if key = serviceKey r.Service then ⟨true, c + n, d⟩ else s key := by
  intro n
  induction n with
  | zero =>
    intro c d s hs
    refine ⟨rfl, fun key => ?_⟩
    by_cases hk : key = serviceKey r.Service
    · rw [if_pos hk, hk]
      show s (serviceKey r.Service) = ⟨true, c + 0, d⟩
      rw [hs]
      rfl
    · rw [if_neg hk]
      rfl
  | succ m ih =>
    intro c d s hs
    obtain ⟨ih1, ih2⟩ := ih (c + 1) d
        (fun k => if k = serviceKey r.Service then ⟨true, c + 1, d⟩ else s k)
        (by simp)
    have hdet : detectTransitions now [r] s =
        ([], fun k => if k = serviceKey r.Service then ⟨true, c + 1, d⟩ else s k) := by
      rw [detect_single, hs, stepResult_down_latched now r c d hr]
    have hrw : replay (List.replicate (m + 1) (now, [r])) s =
        ([] :: (replay (List.replicate m (now, [r]))
                  (fun k => if k = serviceKey r.Service then ⟨true, c + 1, d⟩ else s k)).1,
         (replay (List.replicate m (now, [r]))
                  (fun k => if k = serviceKey r.Service then ⟨true, c + 1, d⟩ else s k)).2) := by
      rw [List.replicate_succ, replay_cons_batch, hdet]
    refine ⟨?_, fun key => ?_⟩
    · rw [hrw, List.replicate_succ]
      show [] :: _ = ([] : List Transition) :: _
      rw [ih1]
    · rw [hrw]
      show (replay (List.replicate m (now, [r]))
              (fun k => if k = serviceKey r.Service then ⟨true, c + 1, d⟩ else s k)).2 key = _
      rw [ih2 key]
      by_cases hk : key = serviceKey r.Service
      · rw [if_pos hk, if_pos hk]
        have hc : c + 1 + m = c + (m + 1) := by omega
        rw [hc]
      · rw [if_neg hk, if_neg hk, if_neg hk]

/-- C2: once a service's state is Down, any further run of "down" outcomes
for it emits no transitions at all; the failure counter increments by the
number of failures but the state changes in no other way, and no other
key's state is touched. -/
theorem c2_no_duplicate_down_alerts (r : CheckResult) (now : Nat) (hr : r.Up = false)
    (s : States) (hdown : (s (serviceKey r.Service)).IsDown = true) (n : Nat) :
    (replay (List.replicate n (now, [r])) s).1.flatten = [] ∧
    (replay (List.replicate n (now, [r])) s).2 (serviceKey r.Service) =
      ⟨true, (s (serviceKey r.Service)).FailCount + n,
       (s (serviceKey r.Service)).DownSince⟩ ∧
    ∀ key, key ≠ serviceKey r.Service →
      (replay (List.replicate n (now, [r])) s).2 key = s key := by
  rcases hsk : s (serviceKey r.Service) with ⟨b, c, d⟩
  rw [hsk] at hdown
  simp only at hdown
  subst hdown
  obtain ⟨h1, h2⟩ := replay_latched_run r now hr n c d s hsk
  refine ⟨?_, ?_, ?_⟩
  · rw [h1, flatten_replicate_empty]
  · rw [h2 (serviceKey r.Service), if_pos rfl]
  · intro key hk
    rw [h2 key, if_neg hk]

/-- Witness for C2: a service latched Down with counter 4 takes 5 more
failures without emitting anything. -/
theorem c2_no_duplicate_down_alerts_witness :
    (replay (List.replicate 5
        (9, [{ Service := ⟨"api", "http://api.example.com", "production"⟩, Up := false,
               StatusCode := 503, Latency := 5, Error := "http_503" }]))
      (fun _ => (⟨true, 4, 7⟩ : ServiceState))).1.flatten = [] ∧
    (replay (List.replicate 5
        (9, [{ Service := ⟨"api", "http://api.example.com", "production"⟩, Up := false,
               StatusCode := 503, Latency := 5, Error := "http_503" }]))
      (fun _ => (⟨true, 4, 7⟩ : ServiceState))).2
        (serviceKey ⟨"api", "http://api.example.com", "production"⟩) =
      ⟨true, ((fun _ => (⟨true, 4, 7⟩ : ServiceState))
          (serviceKey ⟨"api", "http://api.example.com", "production"⟩)).FailCount + 5,
       ((fun _ => (⟨true, 4, 7⟩ : ServiceState))
          (serviceKey ⟨"api", "http://api.example.com", "production"⟩)).DownSince⟩ ∧
    ∀ key, key ≠ serviceKey ⟨"api", "http://api.example.com", "production"⟩ →
      (replay (List.replicate 5
          (9, [{ Service := ⟨"api", "http://api.example.com", "production"⟩, Up := false,
                 StatusCode := 503, Latency := 5, Error := "http_503" }]))
        (fun _ => (⟨true, 4, 7⟩ : ServiceState))).2 key =
        (fun _ => (⟨true, 4, 7⟩ : ServiceState)) key :=
  c2_no_duplicate_down_alerts
    { Service := ⟨"api", "http://api.example.com", "production"⟩, Up := false,
      StatusCode := 503, Latency := 5, Error := "http_503" } 9 rfl
    (fun _ => (⟨true, 4, 7⟩ : ServiceState)) rfl 5

/-- C3: a single "up" outcome for a service whose state is Down (with the
nonzero down-since stamp every reachable Down state carries) emits exactly
one "up" transition whose downtime is `now - DownSince` formatted, resets
the state to Up with counter 0 and cleared `DownSince`, and touches no
other key. -/
theorem c3_recovery_transition (r : CheckResult) (now : Nat) (hr : r.Up = true)
    (s : States) (hdown : (s (serviceKey r.Service)).IsDown = true)
    (hsince : (s (serviceKey r.Service)).DownSince ≠ 0) :
    (detectTransitions now [r] s).1 =
      [{ ServiceName := displayName r.Service, Kind := "up", Error := "",
         Downtime := formatDuration (now - (s (serviceKey r.Service)).DownSince) }] ∧
    (detectTransitions now [r] s).2 (serviceKey r.Service) = ⟨false, 0, 0⟩ ∧
    ∀ key, key ≠ serviceKey r.Service → (detectTransitions now [r] s).2 key = s key := by
  rcases hsk : s (serviceKey r.Service) with ⟨b, c, d⟩
  rw [hsk] at hdown hsince
  simp only at hdown hsince
  subst hdown
  have hdet : detectTransitions now [r] s =
      ([{ ServiceName := displayName r.Service, Kind := "up", Error := "",
          Downtime := formatDuration (now - d) }],
       fun k => if k = serviceKey r.Service then ⟨false, 0, 0⟩ else s k) := by
    rw [detect_single, hsk, stepResult_up_recovery now r c d hr, if_pos hsince]
  refine ⟨?_, ?_, ?_⟩
  · rw [hdet]
  · rw [hdet]
    show (if serviceKey r.Service = serviceKey r.Service then (⟨false, 0, 0⟩ : ServiceState)
          else s (serviceKey r.Service)) = ⟨false, 0, 0⟩
    rw [if_pos rfl]
  · intro key hk
    rw [hdet]
    show (if key = serviceKey r.Service then (⟨false, 0, 0⟩ : ServiceState) else s key) = s key
    rw [if_neg hk]

/-- Witness for C3 at a concrete Down state and clock. -/
theorem c3_recovery_transition_witness :
    (detectTransitions 10
      [{ Service := ⟨"api", "http://api.example.com", "production"⟩, Up := true,
         StatusCode := 200, Latency := 5, Error := "" }]
      (fun _ => (⟨true, 4, 7⟩ : ServiceState))).1 =
      [{ ServiceName := displayName ⟨"api", "http://api.example.com", "production"⟩,
         Kind := "up", Error := "",
         Downtime := formatDuration (10 - ((fun _ => (⟨true, 4, 7⟩ : ServiceState))
           (serviceKey ⟨"api", "http://api.example.com", "production"⟩)).DownSince) }] ∧
    (detectTransitions 10
      [{ Service := ⟨"api", "http://api.example.com", "production"⟩, Up := true,
         StatusCode := 200, Latency := 5, Error := "" }]
      (fun _ => (⟨true, 4, 7⟩ : ServiceState))).2
        (serviceKey ⟨"api", "http://api.example.com", "production"⟩) = ⟨false, 0, 0⟩ ∧
    ∀ key, key ≠ serviceKey ⟨"api", "http://api.example.com", "production"⟩ →
      (detectTransitions 10
        [{ Service := ⟨"api", "http://api.example.com", "production"⟩, Up := true,
           StatusCode := 200, Latency := 5, Error := "" }]
        (fun _ => (⟨true, 4, 7⟩ : ServiceState))).2 key =
        (fun _ => (⟨true, 4, 7⟩ : ServiceState)) key :=
  c3_recovery_transition
    { Service := ⟨"api", "http://api.example.com", "production"⟩, Up := true,
      StatusCode := 200, Latency := 5, Error := "" } 10 rfl
    (fun _ => (⟨true, 4, 7⟩ : ServiceState)) rfl (by decide)

/-- C1: starting from the fresh Up state with failure counter 0, fewer than
4 consecutive "down" outcomes for a service make `detectTransitions` emit no
transitions at all, and the exactly 4th consecutive "down" outcome emits
exactly one "down" transition whose `Error` equals the triggering outcome's
error tag. -/
theorem c1_debounce_threshold (r : CheckResult) (now : Nat) (hr : r.Up = false) :
    (∀ k, k < failThreshold →
      (replay (List.replicate k (now, [r])) initialStates).1.flatten = []) ∧
    (replay (List.replicate failThreshold (now, [r])) initialStates).1.flatten =
      [{ ServiceName := displayName r.Service, Kind := "down", Error := r.Error,
         Downtime := "" }] := by
  constructor
  · intro k hk
    obtain ⟨h1, -⟩ := replay_down_run r now hr k 0 0 initialStates rfl (by omega)
    rw [h1, flatten_replicate_empty]
  · obtain ⟨h1, h2⟩ := replay_down_run r now hr 3 0 0 initialStates rfl (by decide)
    have hkey3 : (replay (List.replicate 3 (now, [r])) initialStates).2
        (serviceKey r.Service) = ⟨false, 3, 0⟩ := by
      rw [h2 (serviceKey r.Service), if_pos rfl]
    have hdet4 : detectTransitions now [r]
        ((replay (List.replicate 3 (now, [r])) initialStates).2) =
        ([{ ServiceName := displayName r.Service, Kind := "down", Error := r.Error,
            Downtime := "" }],
         fun k => if k = serviceKey r.Service then ⟨true, 4, now⟩
                  else (replay (List.replicate 3 (now, [r])) initialStates).2 k) := by
      rw [detect_single, hkey3, stepResult_down_trigger now r 3 0 hr (by decide)]
    have h4 : List.replicate failThreshold (now, [r]) =
        List.replicate 3 (now, [r]) ++ [(now, [r])] := by
      rw [show failThreshold = 3 + 1 from rfl, List.replicate_add, List.replicate_one]
    rw [h4, replay_append, List.flatten_append, h1, flatten_replicate_empty,
        replay_cons_batch, hdet4, replay_nil]
    simp

/-- Witness for C1 at a concrete service, outcome and clock. -/
theorem c1_debounce_threshold_witness :
    (replay (List.replicate failThreshold
        (1, [{ Service := ⟨"api", "http://api.example.com", "production"⟩, Up := false,
               StatusCode := 503, Latency := 5, Error := "http_503" }]))
      initialStates).1.flatten =
      [{ ServiceName := displayName ⟨"api", "http://api.example.com", "production"⟩,
         Kind := "down", Error := "http_503", Downtime := "" }] :=
  (c1_debounce_threshold
    { Service := ⟨"api", "http://api.example.com", "production"⟩, Up := false,
      StatusCode := 503, Latency := 5, Error := "http_503" } 1 rfl).2

/-- C4: an "up" outcome for a service that is Up with fewer than 4
accumulated failures emits nothing and resets the failure counter to 0;
consequently `a` failures, a success, then `b` failures (each run below the
threshold) emit no transitions from a fresh tracker: the counter does not
accumulate across an interleaved success. -/
theorem c4_up_resets_counter (now : Nat) (r : CheckResult) (s : States)
    (hr : r.Up = true) (hup : (s (serviceKey r.Service)).IsDown = false)
    (hfc : (s (serviceKey r.Service)).FailCount < failThreshold)
    (rDown : CheckResult) (a b : Nat) (hd : rDown.Up = false)
    (hsvc : rDown.Service = r.Service) (ha : a < failThreshold) (hb : b < failThreshold) :
    (detectTransitions now [r] s).1 = [] ∧
    (detectTransitions now [r] s).2 (serviceKey r.Service) =
      ⟨false, 0, (s (serviceKey r.Service)).DownSince⟩ ∧
    (replay (List.replicate a (now, [rDown]) ++
        (now, [r]) :: List.replicate b (now, [rDown])) initialStates).1.flatten = [] := by
  rcases hsk : s (serviceKey r.Service) with ⟨bb, c, d⟩
  rw [hsk] at hup hfc
  simp only at hup hfc
  subst hup
  have hdet : detectTransitions now [r] s =
      ([], fun k => if k = serviceKey r.Service then ⟨false, 0, d⟩ else s k) := by
    rw [detect_single, hsk, stepResult_up_reset now r c d hr]
  refine ⟨?_, ?_, ?_⟩
  · rw [hdet]
  · rw [hdet]
    show (if serviceKey r.Service = serviceKey r.Service then (⟨false, 0, d⟩ : ServiceState)
          else s (serviceKey r.Service)) = ⟨false, 0, d⟩
    rw [if_pos rfl]
  · obtain ⟨g1, g2⟩ := replay_down_run rDown now hd a 0 0 initialStates rfl (by omega)
    have hs1 : (replay (List.replicate a (now, [rDown])) initialStates).2
        (serviceKey r.Service) = ⟨false, a, 0⟩ := by
      rw [← hsvc, g2 (serviceKey rDown.Service), if_pos rfl, Nat.zero_add]
    have hdetUp : detectTransitions now [r]
        ((replay (List.replicate a (now, [rDown])) initialStates).2) =
        ([], fun k => if k = serviceKey r.Service then ⟨false, 0, 0⟩
             else (replay (List.replicate a (now, [rDown])) initialStates).2 k) := by
      rw [detect_single, hs1, stepResult_up_reset now r a 0 hr]
    have hs2 : (fun k => if k = serviceKey r.Service then (⟨false, 0, 0⟩ : ServiceState)
          else (replay (List.replicate a (now, [rDown])) initialStates).2 k)
        (serviceKey rDown.Service) = ⟨false, 0, 0⟩ := by
      rw [hsvc]
      show (if serviceKey r.Service = serviceKey r.Service then (⟨false, 0, 0⟩ : ServiceState)
            else _) = ⟨false, 0, 0⟩
      rw [if_pos rfl]
    obtain ⟨g3, -⟩ := replay_down_run rDown now hd b 0 0
        (fun k => if k = serviceKey r.Service then (⟨false, 0, 0⟩ : ServiceState)
          else (replay (List.replicate a (now, [rDown])) initialStates).2 k) hs2 (by omega)
    have hrw : replay ((now, [r]) :: List.replicate b (now, [rDown]))
        ((replay (List.replicate a (now, [rDown])) initialStates).2) =
        ([] :: (replay (List.replicate b (now, [rDown]))
            (fun k => if k = serviceKey r.Service then (⟨false, 0, 0⟩ : ServiceState)
              else (replay (List.replicate a (now, [rDown])) initialStates).2 k)).1,
         (replay (List.replicate b (now, [rDown]))
            (fun k => if k = serviceKey r.Service then (⟨false, 0, 0⟩ : ServiceState)
              else (replay (List.replicate a (now, [rDown])) initialStates).2 k)).2) := by
      rw [replay_cons_batch, hdetUp]
    rw [replay_append, List.flatten_append, g1, flatten_replicate_empty, hrw]
    show ([] ++ (([] : List Transition) :: (replay (List.replicate b (now, [rDown]))
        (fun k => if k = serviceKey r.Service then (⟨false, 0, 0⟩ : ServiceState)
          else (replay (List.replicate a (now, [rDown])) initialStates).2 k)).1).flatten) = []
    rw [g3]
    simp [flatten_replicate_empty]

/-- Witness for C4: counter 2 state, then 2 failures + success + 3 failures
from a fresh tracker. -/
theorem c4_up_resets_counter_witness :
    (detectTransitions 3
      [{ Service := ⟨"api", "http://api.example.com", "production"⟩, Up := true,
         StatusCode := 200, Latency := 5, Error := "" }]
      (fun _ => (⟨false, 2, 0⟩ : ServiceState))).1 = [] ∧
    (detectTransitions 3
      [{ Service := ⟨"api", "http://api.example.com", "production"⟩, Up := true,
         StatusCode := 200, Latency := 5, Error := "" }]
      (fun _ => (⟨false, 2, 0⟩ : ServiceState))).2
        (serviceKey ⟨"api", "http://api.example.com", "production"⟩) =
      ⟨false, 0, ((fun _ => (⟨false, 2, 0⟩ : ServiceState))
        (serviceKey ⟨"api", "http://api.example.com", "production"⟩)).DownSince⟩ ∧
    (replay (List.replicate 2
        (3, [{ Service := ⟨"api", "http://api.example.com", "production"⟩, Up := false,
               StatusCode := 503, Latency := 5, Error := "http_503" }]) ++
        (3, [{ Service := ⟨"api", "http://api.example.com", "production"⟩, Up := true,
               StatusCode := 200, Latency := 5, Error := "" }]) ::
        List.replicate 3
        (3, [{ Service := ⟨"api", "http://api.example.com", "production"⟩, Up := false,
               StatusCode := 503, Latency := 5, Error := "http_503" }]))
      initialStates).1.flatten = [] :=
  c4_up_resets_counter 3
    { Service := ⟨"api", "http://api.example.com", "production"⟩, Up := true,
      StatusCode := 200, Latency := 5, Error := "" }
    (fun _ => (⟨false, 2, 0⟩ : ServiceState)) rfl rfl (by decide)
    { Service := ⟨"api", "http://api.example.com", "production"⟩, Up := false,
      StatusCode := 503, Latency := 5, Error := "http_503" }
    2 3 rfl rfl (by decide) (by decide)

theorem stepResult_names (now : Nat) (r : CheckResult) (st : ServiceState) :
    ∀ t ∈ (stepResult now r st).1, t.ServiceName = displayName r.Service := by
  intro t ht
  unfold stepResult at ht
  split at ht
  · split at ht
    · simp at ht
      rw [ht]
    · simp at ht
  · split at ht
    · simp at ht
      rw [ht]
    · simp at ht

theorem detect_frame (now : Nat) (results : List CheckResult) :
    ∀ (s : States) (k : String), (∀ r ∈ results, serviceKey r.Service ≠ k) →
      (detectTransitions now results s).2 k = s k := by
  induction results with
  | nil => intro s k _; rfl
  | cons r rest ih =>
    intro s k hk
    rw [detect_cons]
    show (detectTransitions now rest
        (fun kk => if kk = serviceKey r.Service
                   then (stepResult now r (s (serviceKey r.Service))).2 else s kk)).2 k = s k
    rw [ih _ k (fun r' hr' => hk r' (List.mem_cons_of_mem _ hr'))]
    show (if k = serviceKey r.Service then _ else s k) = s k
    rw [if_neg (fun h => hk r (List.mem_cons_self r rest) h.symm)]

theorem detect_names (now : Nat) (results : List CheckResult) :
    ∀ (s : States) (t : Transition), t ∈ (detectTransitions now results s).1 →
      ∃ r ∈ results, t.ServiceName = displayName r.Service := by
  induction results with
  | nil =>
    intro s t ht
    rw [detect_nil] at ht
    cases ht
  | cons r rest ih =>
    intro s t ht
    rw [detect_cons] at ht
    rcases List.mem_append.mp ht with h | h
    · exact ⟨r, List.mem_cons_self r rest, stepResult_names now r _ t h⟩
    · obtain ⟨r', hr', he⟩ := ih _ t h
      exact ⟨r', List.mem_cons_of_mem _ hr', he⟩

theorem replay_frame (batches : List (Nat × List CheckResult)) :
    ∀ (s : States) (k : String),
      (∀ b ∈ batches, ∀ r ∈ b.2, serviceKey r.Service ≠ k) →
      (replay batches s).2 k = s k := by
  induction batches with
  | nil => intro s k _; rfl
  | cons b rest ih =>
    intro s k hk
    rw [replay_cons]
    show (replay rest (detectTransitions b.1 b.2 s).2).2 k = s k
    rw [ih _ k (fun b' hb' => hk b' (List.mem_cons_of_mem _ hb')),
        detect_frame b.1 b.2 s k (hk b (List.mem_cons_self b rest))]

theorem replay_names (batches : List (Nat × List CheckResult)) :
    ∀ (s : States) (ts : List Transition) (t : Transition),
      ts ∈ (replay batches s).1 → t ∈ ts →
      ∃ b ∈ batches, ∃ r ∈ b.2, t.ServiceName = displayName r.Service := by
  induction batches with
  | nil =>
    intro s ts t hts _
    rw [replay_nil] at hts
    cases hts
  | cons b rest ih =>
    intro s ts t hts ht
    rw [replay_cons] at hts
    rcases List.mem_cons.mp hts with h | h
    · subst h
      obtain ⟨r, hr, he⟩ := detect_names b.1 b.2 s t ht
      exact ⟨b, List.mem_cons_self b rest, r, hr, he⟩
    · obtain ⟨b', hb', r, hr, he⟩ := ih _ ts t h ht
      exact ⟨b', List.mem_cons_of_mem _ hb', r, hr, he⟩

/-- C5: two services sharing a name but differing in environment are tracked
under distinct keys, and batches containing only the first service's
outcomes leave the second service's state untouched and emit only
transitions named after the first service (whose display name differs from
the second's). -/
theorem c5_env_isolated (svc1 svc2 : Service) (hname : svc1.Name = svc2.Name)
    (henv : svc1.Env ≠ svc2.Env) (batches : List (Nat × List CheckResult))
    (hres : ∀ b ∈ batches, ∀ r ∈ b.2, r.Service = svc1) (s : States) :
    serviceKey svc1 ≠ serviceKey svc2 ∧
    displayName svc1 ≠ displayName svc2 ∧
    (replay batches s).2 (serviceKey svc2) = s (serviceKey svc2) ∧
    ∀ ts ∈ (replay batches s).1, ∀ t ∈ ts, t.ServiceName = displayName svc1 := by
  have hkey := serviceKey_ne_of_env_ne hname henv
  refine ⟨hkey, displayName_ne_of_env_ne hname henv, ?_, ?_⟩
  · exact replay_frame batches s (serviceKey svc2)
      (fun b hb r hr => by rw [hres b hb r hr]; exact hkey)
  · intro ts hts t ht
    obtain ⟨b, hb, r, hr, he⟩ := replay_names batches s ts t hts ht
    rw [he, hres b hb r hr]

/-- Witness for C5 at two concrete same-name services in different
environments, with one down batch for the first. -/
theorem c5_env_isolated_witness :
    serviceKey ⟨"api", "http://api.example.com", "production"⟩ ≠
      serviceKey ⟨"api", "http://api.dev.example.com", "development"⟩ ∧
    displayName ⟨"api", "http://api.example.com", "production"⟩ ≠
      displayName ⟨"api", "http://api.dev.example.com", "development"⟩ ∧
    (replay [(1, [{ Service := ⟨"api", "http://api.example.com", "production"⟩, Up := false,
                    StatusCode := 503, Latency := 5, Error := "http_503" }])]
      initialStates).2
        (serviceKey ⟨"api", "http://api.dev.example.com", "development"⟩) =
      initialStates (serviceKey ⟨"api", "http://api.dev.example.com", "development"⟩) ∧
    ∀ ts ∈ (replay [(1, [{ Service := ⟨"api", "http://api.example.com", "production"⟩,
                           Up := false, StatusCode := 503, Latency := 5,
                           Error := "http_503" }])] initialStates).1,
      ∀ t ∈ ts, t.ServiceName = displayName ⟨"api", "http://api.example.com", "production"⟩ :=
  c5_env_isolated ⟨"api", "http://api.example.com", "production"⟩
    ⟨"api", "http://api.dev.example.com", "development"⟩ rfl (by decide)
    [(1, [{ Service := ⟨"api", "http://api.example.com", "production"⟩, Up := false,
            StatusCode := 503, Latency := 5, Error := "http_503" }])]
    (by decide) initialStates

/-- C6 counterexample: the claim says a malformed target address yields the
fixed tag `invalid_url`, but `checkService` writes the literal
`"invalid url"` (a space, not an underscore); likewise `"request failed"`. -/
theorem c6_error_tag_counterexample :
    ¬ ((checkService ⟨"api", "://bad", "production"⟩ 0 0 NetResult.invalidURL).Error =
        "invalid_url" ∧
       (checkService ⟨"api", "http://api.example.com", "production"⟩ 0 3
          NetResult.requestError).Error = "request_failed") := by
  intro h
  exact absurd h.1 (by decide)

/-- C6 (amended): a probe is "up" iff a response arrived with status in
[200,300); a response outside that range is "down" with tag `http_<code>`;
a malformed address is "down" with the fixed tag `"invalid url"` and the
latency measured at request-build time; a network/timeout failure is "down"
with the fixed tag `"request failed"`; the measured latency is recorded in
every case. -/
theorem c6_probe_classification (svc : Service) (elapsedReq elapsed : Nat)
    (net : NetResult) :
    ((checkService svc elapsedReq elapsed net).Up = true ↔
      ∃ code, net = NetResult.response code ∧ 200 ≤ code ∧ code < 300) ∧
    (∀ code, net = NetResult.response code → ¬ (200 ≤ code ∧ code < 300) →
      (checkService svc elapsedReq elapsed net).Error = "http_" ++ toString code) ∧
    (checkService svc elapsedReq elapsed NetResult.invalidURL).Up = false ∧
    (checkService svc elapsedReq elapsed NetResult.invalidURL).Error = "invalid url" ∧
    (checkService svc elapsedReq elapsed NetResult.invalidURL).Latency = elapsedReq ∧
    (checkService svc elapsedReq elapsed NetResult.requestError).Up = false ∧
    (checkService svc elapsedReq elapsed NetResult.requestError).Error = "request failed" ∧
    (net ≠ NetResult.invalidURL → (checkService svc elapsedReq elapsed net).Latency = elapsed) := by
  refine ⟨?_, ?_, rfl, rfl, rfl, rfl, rfl, ?_⟩
  · constructor
    · intro hup
      cases net with
      | invalidURL => simp [checkService] at hup
      | requestError => simp [checkService] at hup
      | response code =>
        by_cases hc : 200 ≤ code ∧ code < 300
        · exact ⟨code, rfl, hc⟩
        · simp only [checkService] at hup
          rw [if_neg hc] at hup
          simp at hup
    · rintro ⟨code, rfl, hc⟩
      simp only [checkService]
      rw [if_pos hc]
  · intro code hnet hc
    subst hnet
    simp only [checkService]
    rw [if_neg hc]
  · intro hnet
    cases net with
    | invalidURL => exact absurd rfl hnet
    | requestError => rfl
    | response code =>
      simp only [checkService]
      by_cases hc : 200 ≤ code ∧ code < 300
      · rw [if_pos hc]
      · rw [if_neg hc]

/-- Witness for C6 at a concrete 503 response. -/
theorem c6_probe_classification_witness :
    (checkService ⟨"api", "http://api.example.com", "production"⟩ 0 7
        (NetResult.response 503)).Error = "http_" ++ toString 503 ∧
    (checkService ⟨"api", "http://api.example.com", "production"⟩ 0 7
        (NetResult.response 503)).Latency = 7 :=
  ⟨(c6_probe_classification ⟨"api", "http://api.example.com", "production"⟩ 0 7
      (NetResult.response 503)).2.1 503 rfl (by decide),
   (c6_probe_classification ⟨"api", "http://api.example.com", "production"⟩ 0 7
      (NetResult.response 503)).2.2.2.2.2.2.2 (by decide)⟩

theorem foldl_write_eq (probe : Nat → CheckResult) (n i : Nat) (hi : i < n) :
    ∀ (schedule : List Nat) (buf : Nat → Option CheckResult),
      (i ∈ schedule ∨ buf i = some (probe i)) →
      (schedule.foldl (writeResult probe n) buf) i = some (probe i) := by
  intro schedule
  induction schedule with
  | nil =>
    intro buf h
    rcases h with h | h
    · cases h
    · exact h
  | cons a rest ih =>
    intro buf h
    rw [List.foldl_cons]
    apply ih
    rcases h with h | h
    · rcases List.mem_cons.mp h with rfl | hmem
      · right
        show (if i = i ∧ i < n then some (probe i) else buf i) = some (probe i)
        rw [if_pos ⟨rfl, hi⟩]
      · left
        exact hmem
    · right
      show (if i = a ∧ a < n then some (probe a) else buf i) = some (probe i)
      by_cases hia : i = a ∧ a < n
      · rw [if_pos hia, hia.1]
      · rw [if_neg hia]
        exact h

/-- C7: for any completion order (`schedule`) that covers every launched
index — which `wg.Wait()` guarantees before `checkAll` returns — the
returned list has exactly one outcome per service, and the outcome at
index `i` is the probe result of the service at input index `i`. -/
theorem c7_scheduler_positional (probe : Nat → CheckResult) (n : Nat)
    (schedule : List Nat) (hcover : ∀ i, i < n → i ∈ schedule) :
    checkAll probe n schedule = (List.range n).map (fun i => some (probe i)) := by
  unfold checkAll
  apply List.map_congr_left
  intro i hi
  have hi' : i < n := List.mem_range.mp hi
  exact foldl_write_eq probe n i hi' schedule (fun _ => none) (Or.inl (hcover i hi'))

/-- Witness for C7: 3 services completing in the order 2, 0, 1. -/
theorem c7_scheduler_positional_witness :
    checkAll (fun i => ⟨⟨"svc", "http://example.com", "production"⟩, true, 200, i, ""⟩)
        3 [2, 0, 1] =
      (List.range 3).map
        (fun i => some ⟨⟨"svc", "http://example.com", "production"⟩, true, 200, i, ""⟩) :=
  c7_scheduler_positional _ 3 [2, 0, 1] (by decide)

theorem detect_congr (now : Nat) (results : List CheckResult) :
    ∀ (s1 s2 : States), (∀ k, s1 k = s2 k) →
      (detectTransitions now results s1).1 = (detectTransitions now results s2).1 ∧
      ∀ k, (detectTransitions now results s1).2 k = (detectTransitions now results s2).2 k := by
  induction results with
  | nil => intro s1 s2 hs; exact ⟨rfl, hs⟩
  | cons r rest ih =>
    intro s1 s2 hs
    have hkey : s1 (serviceKey r.Service) = s2 (serviceKey r.Service) := hs _
    obtain ⟨h1, h2⟩ := ih
        (fun k => if k = serviceKey r.Service
                  then (stepResult now r (s1 (serviceKey r.Service))).2 else s1 k)
        (fun k => if k = serviceKey r.Service
                  then (stepResult now r (s2 (serviceKey r.Service))).2 else s2 k)
        (fun k => by
          show (if k = serviceKey r.Service
                then (stepResult now r (s1 (serviceKey r.Service))).2 else s1 k) =
            (if k = serviceKey r.Service
             then (stepResult now r (s2 (serviceKey r.Service))).2 else s2 k)
          by_cases hk : k = serviceKey r.Service
          · rw [if_pos hk, if_pos hk, hkey]
          · rw [if_neg hk, if_neg hk]
            exact hs k)
    constructor
    · rw [detect_cons, detect_cons]
      show (stepResult now r (s1 (serviceKey r.Service))).1 ++ _ =
        (stepResult now r (s2 (serviceKey r.Service))).1 ++ _
      rw [h1, hkey]
    · intro k
      rw [detect_cons, detect_cons]
      exact h2 k

theorem replay_congr (batches : List (Nat × List CheckResult)) :
    ∀ (s1 s2 : States), (∀ k, s1 k = s2 k) →
      (replay batches s1).1 = (replay batches s2).1 ∧
      ∀ k, (replay batches s1).2 k = (replay batches s2).2 k := by
  induction batches with
  | nil => intro s1 s2 hs; exact ⟨rfl, hs⟩
  | cons b rest ih =>
    intro s1 s2 hs
    obtain ⟨d1, d2⟩ := detect_congr b.1 b.2 s1 s2 hs
    obtain ⟨h1, h2⟩ := ih (detectTransitions b.1 b.2 s1).2 (detectTransitions b.1 b.2 s2).2 d2
    constructor
    · rw [replay_cons, replay_cons]
      show (detectTransitions b.1 b.2 s1).1 :: _ = (detectTransitions b.1 b.2 s2).1 :: _
      rw [d1, h1]
    · intro k
      rw [replay_cons, replay_cons]
      exact h2 k

/-- C8: the tracker is deterministic — replaying the same batch sequence
with the same clock readings from two state maps holding the same states
(in particular two fresh trackers) yields identical transition sequences
and identical final states. -/
theorem c8_deterministic_replay (batches : List (Nat × List CheckResult))
    (s1 s2 : States) (hs : ∀ k, s1 k = s2 k) :
    (replay batches s1).1 = (replay batches s2).1 ∧
    ∀ k, (replay batches s1).2 k = (replay batches s2).2 k :=
  replay_congr batches s1 s2 hs

/-- Witness for C8: two fresh trackers fed the same batch. -/
theorem c8_deterministic_replay_witness :
    (replay [(1, [{ Service := ⟨"api", "http://api.example.com", "production"⟩, Up := false,
                    StatusCode := 503, Latency := 5, Error := "http_503" }])]
      initialStates).1 =
    (replay [(1, [{ Service := ⟨"api", "http://api.example.com", "production"⟩, Up := false,
                    StatusCode := 503, Latency := 5, Error := "http_503" }])]
      initialStates).1 ∧
    ∀ k, (replay [(1, [{ Service := ⟨"api", "http://api.example.com", "production"⟩,
                         Up := false, StatusCode := 503, Latency := 5,
                         Error := "http_503" }])] initialStates).2 k =
      (replay [(1, [{ Service := ⟨"api", "http://api.example.com", "production"⟩,
                      Up := false, StatusCode := 503, Latency := 5,
                      Error := "http_503" }])] initialStates).2 k :=
  c8_deterministic_replay
    [(1, [{ Service := ⟨"api", "http://api.example.com", "production"⟩, Up := false,
            StatusCode := 503, Latency := 5, Error := "http_503" }])]
    initialStates initialStates (fun _ => rfl)

/-- C9: the single-slot incident register is overwritten exactly by "up"
transitions with a nonempty downtime — becoming (that transition's service
display name, the current time, its downtime) — and is unchanged by "down"
transitions, by "up" transitions with empty downtime, and by any batch
containing only such transitions. -/
theorem c9_incident_register (now : Nat) (inc : LastIncident) (t : Transition) :
    (t.Kind = "up" → t.Downtime ≠ "" →
      recordIncident now inc t = ⟨t.ServiceName, now, t.Downtime⟩) ∧
    (t.Kind = "down" → recordIncident now inc t = inc) ∧
    (t.Kind = "up" → t.Downtime = "" → recordIncident now inc t = inc) ∧
    ∀ ts : List Transition, (∀ u ∈ ts, u.Kind = "down" ∨ u.Downtime = "") →
      recordIncidents now inc ts = inc := by
  refine ⟨?_, ?_, ?_, ?_⟩
  · intro hk hd
    unfold recordIncident
    rw [if_pos ⟨hk, hd⟩]
  · intro hk
    unfold recordIncident
    rw [if_neg]
    rintro ⟨hup, -⟩
    rw [hk] at hup
    exact absurd hup (by decide)
  · intro hk hd
    unfold recordIncident
    rw [if_neg]
    rintro ⟨-, hne⟩
    exact hne hd
  · intro ts
    induction ts generalizing inc with
    | nil => intro _; rfl
    | cons u rest ih =>
      intro hall
      have hu : recordIncident now inc u = inc := by
        unfold recordIncident
        rw [if_neg]
        rintro ⟨hup, hne⟩
        rcases hall u (List.mem_cons_self u rest) with h | h
        · rw [h] at hup
          exact absurd hup (by decide)
        · exact hne h
      show recordIncidents now (recordIncident now inc u) rest = inc
      rw [hu]
      exact ih inc (fun u' hu' => hall u' (List.mem_cons_of_mem _ hu'))

/-- Witness for C9 at a concrete recovery transition and a concrete
ignored batch. -/
theorem c9_incident_register_witness :
    recordIncident 5 ⟨"old", 1, "2m"⟩
        ⟨"api (production)", "up", "", "3m"⟩ =
      ⟨"api (production)", 5, "3m"⟩ ∧
    recordIncidents 5 ⟨"old", 1, "2m"⟩
        [⟨"api (production)", "down", "http_503", ""⟩,
         ⟨"db (production)", "up", "", ""⟩] =
      ⟨"old", 1, "2m"⟩ :=
  ⟨(c9_incident_register 5 ⟨"old", 1, "2m"⟩
      ⟨"api (production)", "up", "", "3m"⟩).1 rfl (by decide),
   (c9_incident_register 5 ⟨"old", 1, "2m"⟩
      ⟨"api (production)", "up", "", "3m"⟩).2.2.2
      [⟨"api (production)", "down", "http_503", ""⟩,
       ⟨"db (production)", "up", "", ""⟩] (by decide)⟩

theorem stepResult_inv (now : Nat) (r : CheckResult) (st : ServiceState)
    (hnow : now ≠ 0) (hinv : Inv st) :
    Inv (stepResult now r st).2 ∧
    ∀ t ∈ (stepResult now r st).1, t.Kind = "up" → t.Downtime ≠ "" := by
  rcases st with ⟨b, c, d⟩
  obtain ⟨hdown, hup⟩ := hinv
  cases b with
  | false =>
    obtain ⟨hd0, hc4⟩ := hup rfl
    cases hru : r.Up with
    | false =>
      by_cases hth : failThreshold ≤ c + 1
      · rw [stepResult_down_trigger now r c d hru hth]
        refine ⟨⟨fun _ => hnow, fun h => absurd h (show ¬(true = false) by decide)⟩, ?_⟩
        intro t ht hk
        simp at ht
        rw [ht] at hk
        exact absurd hk (show ¬("down" = "up") by decide)
      · rw [stepResult_down_incr now r c d hru (by omega)]
        refine ⟨⟨fun h => absurd h (show ¬(false = true) by decide),
          fun _ => ⟨hd0, ?_⟩⟩, ?_⟩
        · show c + 1 < failThreshold
          omega
        · intro t ht
          simp at ht
    | true =>
      rw [stepResult_up_reset now r c d hru]
      refine ⟨⟨fun h => absurd h (show ¬(false = true) by decide),
        fun _ => ⟨hd0, ?_⟩⟩, ?_⟩
      · show (0 : Nat) < failThreshold
        decide
      · intro t ht
        simp at ht
  | true =>
    have hdns : d ≠ 0 := hdown rfl
    cases hru : r.Up with
    | false =>
      rw [stepResult_down_latched now r c d hru]
      refine ⟨⟨fun _ => hdns, fun h => absurd h (show ¬(true = false) by decide)⟩, ?_⟩
      intro t ht
      simp at ht
    | true =>
      rw [stepResult_up_recovery now r c d hru]
      refine ⟨⟨fun h => absurd h (show ¬(false = true) by decide),
        fun _ => ⟨rfl, show (0 : Nat) < failThreshold by decide⟩⟩, ?_⟩
      intro t ht _
      simp at ht
      rw [ht]
      show (if d = 0 then "" else formatDuration (now - d)) ≠ ""
      rw [if_neg hdns]
      exact formatDuration_ne_empty _

theorem detect_inv (now : Nat) (hnow : now ≠ 0) (results : List CheckResult) :
    ∀ (s : States), (∀ k, Inv (s k)) →
      (∀ k, Inv ((detectTransitions now results s).2 k)) ∧
      ∀ t ∈ (detectTransitions now results s).1, t.Kind = "up" → t.Downtime ≠ "" := by
  induction results with
  | nil =>
    intro s hs
    refine ⟨hs, ?_⟩
    intro t ht
    rw [detect_nil] at ht
    cases ht
  | cons r rest ih =>
    intro s hs
    obtain ⟨hstepInv, hstepNames⟩ :=
      stepResult_inv now r (s (serviceKey r.Service)) hnow (hs _)
    obtain ⟨h1, h2⟩ := ih
        (fun k => if k = serviceKey r.Service
                  then (stepResult now r (s (serviceKey r.Service))).2 else s k)
        (fun k => by
          show Inv (if k = serviceKey r.Service
                    then (stepResult now r (s (serviceKey r.Service))).2 else s k)
          by_cases hk : k = serviceKey r.Service
          · rw [if_pos hk]
            exact hstepInv
          · rw [if_neg hk]
            exact hs k)
    constructor
    · intro k
      rw [detect_cons]
      exact h1 k
    · intro t ht
      rw [detect_cons] at ht
      rcases List.mem_append.mp ht with h | h
      · exact hstepNames t h
      · exact h2 t h

theorem replay_inv (batches : List (Nat × List CheckResult)) :
    ∀ (s : States), (∀ b ∈ batches, b.1 ≠ 0) → (∀ k, Inv (s k)) →
      (∀ k, Inv ((replay batches s).2 k)) ∧
      ∀ ts ∈ (replay batches s).1, ∀ t ∈ ts, t.Kind = "up" → t.Downtime ≠ "" := by
  induction batches with
  | nil =>
    intro s _ hs
    refine ⟨hs, ?_⟩
    intro ts hts
    rw [replay_nil] at hts
    cases hts
  | cons b rest ih =>
    intro s hclk hs
    obtain ⟨d1, d2⟩ := detect_inv b.1 (hclk b (List.mem_cons_self b rest)) b.2 s hs
    obtain ⟨h1, h2⟩ := ih (detectTransitions b.1 b.2 s).2
        (fun b' hb' => hclk b' (List.mem_cons_of_mem _ hb')) d1
    constructor
    · intro k
      rw [replay_cons]
      exact h1 k
    · intro ts hts t ht
      rw [replay_cons] at hts
      rcases List.mem_cons.mp hts with h | h
      · subst h
        exact d2 t ht
      · exact h2 ts h t ht

/-- C10: in every tracker state reachable from the fresh state map via
`detectTransitions` with nonzero clock readings, Down states carry a
nonzero `DownSince` and Up states carry a zero `DownSince` and a failure
counter below the threshold (`Inv`); consequently every emitted "up"
transition carries a nonempty downtime — the empty-downtime fallback is
unreachable. -/
theorem c10_reachable_invariant (batches : List (Nat × List CheckResult))
    (hclk : ∀ b ∈ batches, b.1 ≠ 0) :
    (∀ k, Inv ((replay batches initialStates).2 k)) ∧
    ∀ ts ∈ (replay batches initialStates).1, ∀ t ∈ ts,
      t.Kind = "up" → t.Downtime ≠ "" :=
  replay_inv batches initialStates hclk
    (fun _ => ⟨fun h => absurd h (show ¬(false = true) by decide),
      fun _ => ⟨rfl, show (0 : Nat) < failThreshold by decide⟩⟩)

/-- Witness for C10: four failures then a recovery, clock readings nonzero. -/
theorem c10_reachable_invariant_witness :
    (∀ k, Inv ((replay
      (List.replicate 4
        (2, [⟨⟨"api", "http://api.example.com", "production"⟩, false, 503, 5, "http_503"⟩]) ++
        [(9, [⟨⟨"api", "http://api.example.com", "production"⟩, true, 200, 5, ""⟩])])
      initialStates).2 k)) ∧
    ∀ ts ∈ (replay
      (List.replicate 4
        (2, [⟨⟨"api", "http://api.example.com", "production"⟩, false, 503, 5, "http_503"⟩]) ++
        [(9, [⟨⟨"api", "http://api.example.com", "production"⟩, true, 200, 5, ""⟩])])
      initialStates).1, ∀ t ∈ ts, t.Kind = "up" → t.Downtime ≠ "" :=
  c10_reachable_invariant
    (List.replicate 4
      (2, [⟨⟨"api", "http://api.example.com", "production"⟩, false, 503, 5, "http_503"⟩]) ++
      [(9, [⟨⟨"api", "http://api.example.com", "production"⟩, true, 200, 5, ""⟩])])
    (by decide)

end Slack
